import Mathlib

/-!
Verification development for the MoonTVPlus danmaku-filter config service
(`src/app/api/danmaku-filter/route.ts`) and the private-library browsing
controller (`src/app/private-library/page.tsx`).

The JavaScript fragment the route handlers operate on is embedded as the
inductive `JSValue` together with the coercions the code relies on
(truthiness, `String(...)`, property access that throws on `null` and
`undefined`). Numbers are modelled as integers: no claim touches
fractional or NaN behaviour.
-/

/-- A JavaScript runtime value, as far as the route handlers inspect one. -/
inductive JSValue where
  | undefined
  | null
  | bool (b : Bool)
  | num (n : Int)
  | str (s : String)
  | arr (elems : List JSValue)
  | obj (fields : List (String × JSValue))

/-- JavaScript truthiness of a value (`Boolean(v)` / `if (v)`). -/
def truthy : JSValue → Bool
  | .undefined => false
  | .null => false
  | .bool b => b
  | .num n => n != 0
  | .str s => s != ""
  | .arr _ => true
  | .obj _ => true

mutual

/-- JavaScript `String(v)` coercion. -/
def jsToString : JSValue → String
  | .undefined => "undefined"
  | .null => "null"
  | .bool b => if b then "true" else "false"
  | .num n => toString n
  | .str s => s
  | .arr xs => jsJoin xs
  | .obj _ => "[object Object]"

/-- JS Array.prototype.toString: elements joined by commas, with `null`
and `undefined` elements rendered as the empty string. -/
def jsJoin : List JSValue → String
  | [] => ""
  | x :: xs =>
    jsElem x ++ (match xs with
      | [] => ""
      | _ => "," ++ jsJoin xs)

/-- How a single array element prints inside a join. -/
def jsElem : JSValue → String
  | .undefined => ""
  | .null => ""
  | .bool b => if b then "true" else "false"
  | .num n => toString n
  | .str s => s
  | .arr xs => jsJoin xs
  | .obj _ => "[object Object]"

end

/-- Property access `v.name`: throws a `TypeError` on `null`/`undefined`,
yields `undefined` on primitives and on absent fields. -/
def jsGetField (v : JSValue) (name : String) : Except String JSValue :=
  match v with
  | .undefined => .error "TypeError"
  | .null => .error "TypeError"
  | .obj fields =>
    match fields.find? (fun f => f.1 = name) with
    | some f => .ok f.2
    | none => .ok .undefined
  | _ => .ok .undefined

/-- Total variant of property access, usable once the base is known to be
neither `null` nor `undefined` (primitives box to an object with no own
fields). -/
def jsFieldD (v : JSValue) (name : String) : JSValue :=
  match v with
  | .obj fields =>
    match fields.find? (fun f => f.1 = name) with
    | some f => f.2
    | none => .undefined
  | _ => .undefined

/-- JS Array.isArray. -/
def isArray : JSValue → Bool
  | .arr _ => true
  | _ => false

/-- A validated danmaku filter rule, the shape the POST handler stores:
`{ keyword: String(...), type: 'normal'|'regex', enabled: Boolean(...),
id: rule.id || undefined }`. -/
structure FilterRule where
  keyword : String
  type : String
  enabled : Bool
  id : Option JSValue

/-- The per-rule normalization performed by the POST handler
(`config.rules.map((rule) => ({...}))` in route.ts, lines 80-85). Field
accesses happen in source order and throw on a `null`/`undefined` rule,
which the route's `catch` turns into a 500. -/
def normalizeRule (rule : JSValue) : Except String FilterRule := do
  let kw ← jsGetField rule "keyword"
  let keyword := jsToString (if truthy kw then kw else .str "")
  let tyV ← jsGetField rule "type"
  let type :=
    match tyV with
    | .str s => if s = "regex" ∨ s = "normal" then s else "normal"
    | _ => "normal"
  let enV ← jsGetField rule "enabled"
  let enabled := truthy enV
  let idV ← jsGetField rule "id"
  let id := if truthy idV then some idV else none
  return { keyword := keyword, type := type, enabled := enabled, id := id }

/-- One entry of the shared user list (`config.UserConfig.Users`). -/
structure User where
  username : String
  banned : Bool

/-- An observable storage interaction of a handler with the danmaku filter
store (`db.getDanmakuFilterConfig` / `db.setDanmakuFilterConfig`). -/
inductive StorageOp where
  | read (username : String)
  | write (username : String) (rules : List FilterRule)

/-- Body of an HTTP response produced by the route. -/
inductive RespBody where
  | errMsg (msg : String)
  | rules (rs : List FilterRule)
  | success

/-- An HTTP response of the route: status code plus JSON body. -/
structure ApiResponse where
  status : Nat
  body : RespBody

/-- Replay a handler's storage operations against a store (writes are
last-writer-wins full replacements). -/
def applyOps (store : String → Option (List FilterRule)) :
    List StorageOp → (String → Option (List FilterRule))
  | [] => store
  | .read _ :: rest => applyOps store rest
  | .write u rs :: rest =>
    applyOps (fun name => if name = u then some rs else store name) rest

/-- The GET handler of `/api/danmaku-filter` (route.ts, lines 12-49).
`auth` is the username from the session cookie (`none` when the cookie is
absent; the empty string models a falsy `authInfo.username`), `adminEnv`
is `process.env.ADMIN_USERNAME`, `users` the shared user list and `store`
the danmaku filter store. Returns the response together with the storage
operations performed, in order. -/
def handleGET (auth : Option String) (adminEnv : Option String)
    (users : List User) (store : String → Option (List FilterRule)) :
    ApiResponse × List StorageOp :=
  match auth with
  | none => (⟨401, .errMsg "未登录"⟩, [])
  | some username =>
    if username = "" then (⟨401, .errMsg "未登录"⟩, [])
    else
      let authFail : Option ApiResponse :=
        if adminEnv = some username then none
        else
          match users.find? (fun u => u.username = username) with
          | none => some ⟨401, .errMsg "用户不存在"⟩
          | some u => if u.banned then some ⟨401, .errMsg "用户已被封禁"⟩ else none
      match authFail with
      | some resp => (resp, [])
      | none =>
        match store username with
        | none => (⟨200, .rules []⟩, [.read username])
        | some rs => (⟨200, .rules rs⟩, [.read username])

/-- The POST handler of `/api/danmaku-filter` (route.ts, lines 51-101).
`body` is the result of `request.json()` (`Except.error` when the body is
not parseable JSON, which the handler's `catch` maps to a 500). -/
def handlePOST (auth : Option String) (adminEnv : Option String)
    (users : List User) (body : Except String JSValue) :
    ApiResponse × List StorageOp :=
  match auth with
  | none => (⟨401, .errMsg "未登录"⟩, [])
  | some username =>
    if username = "" then (⟨401, .errMsg "未登录"⟩, [])
    else
      let authFail : Option ApiResponse :=
        if adminEnv = some username then none
        else
          match users.find? (fun u => u.username = username) with
          | none => some ⟨401, .errMsg "用户不存在"⟩
          | some u => if u.banned then some ⟨401, .errMsg "用户已被封禁"⟩ else none
      match authFail with
      | some resp => (resp, [])
      | none =>
        match body with
        | .error _ => (⟨500, .errMsg "保存弹幕过滤配置失败"⟩, [])
        | .ok config =>
          if truthy config = false then (⟨400, .errMsg "配置格式错误"⟩, [])
          else
            match jsGetField config "rules" with
            | .error _ => (⟨500, .errMsg "保存弹幕过滤配置失败"⟩, [])
            | .ok rulesV =>
              match rulesV with
              | .arr rules =>
                match rules.mapM normalizeRule with
                | .error _ => (⟨500, .errMsg "保存弹幕过滤配置失败"⟩, [])
                | .ok validatedRules =>
                  (⟨200, .success⟩, [.write username validatedRules])
              | _ => (⟨400, .errMsg "配置格式错误"⟩, [])

/-!
Browsing controller (`src/app/private-library/page.tsx`). The fetch
effect and its commit are embedded as a step relation on an explicit
controller state: `triggerFetch` is the synchronous front of the effect
body (abort the previous request, configuration guards, install the new
abort controller, set the loading flags), and `deliver` is the arrival of
the network outcome of a given fetch (the code after the awaits, guarded
by the `AbortError` catch and the `signal.aborted` check in `finally`).
Fetch instances are identified by natural numbers standing for their
`AbortController`s; `aborted` records the controllers on which `abort()`
was called.
-/

/-- A list item (`Video` interface, page.tsx lines 19-31). Fractional
ratings are modelled as rationals. -/
structure Video where
  id : String
  folder : Option String := none
  tmdbId : Option Int := none
  title : String
  poster : String
  releaseDate : Option String := none
  year : Option String := none
  overview : Option String := none
  voteAverage : Option Rat := none
  rating : Option Rat := none
  mediaType : String
deriving DecidableEq

/-- The injected runtime feature flags (`window.RUNTIME_CONFIG`). -/
structure RuntimeConfig where
  OPENLIST_ENABLED : Bool
  EMBY_ENABLED : Bool
deriving DecidableEq

/-- The browsing controller's state: the React state cells plus the refs
the fetch effect reads and writes. -/
structure LibState where
  sourceType : String
  embyKey : Option String
  videos : List Video
  loading : Bool
  loadingMore : Bool
  error : String
  page : Nat
  hasMore : Bool
  selectedView : String
  isFetching : Bool
  /-- Ref abortControllerRef: id of the controller of the current fetch. -/
  current : Option Nat
  /-- ids of controllers on which `abort()` has been called. -/
  aborted : List Nat
deriving DecidableEq

/-- JS truthiness of the optional `embyKey` string. -/
def truthyKey : Option String → Bool
  | none => false
  | some k => k != ""

/-- Whether the fetch effect actually issues a request for this state
(neither of the two configuration guards fires). -/
def canFetch (cfg : RuntimeConfig) (s : LibState) : Bool :=
  !(s.sourceType = "openlist" ∧ cfg.OPENLIST_ENABLED = false) &&
  !(s.sourceType = "emby" ∧ (cfg.EMBY_ENABLED = false ∨ truthyKey s.embyKey = false))

/-- The synchronous front of the fetch effect (page.tsx lines 252-290):
abort any previous request, bail out on missing configuration (clearing
`loading`), otherwise install controller `fid`, raise the fetching flag,
set `loading`/`loadingMore` according to `page === 1` and clear the
error. -/
def triggerFetch (cfg : RuntimeConfig) (s : LibState) (fid : Nat) : LibState :=
  let isInitial := s.page = 1
  let s1 :=
    match s.current with
    | some old => { s with aborted := old :: s.aborted }
    | none => s
  if s1.sourceType = "openlist" ∧ cfg.OPENLIST_ENABLED = false then
    { s1 with loading := false }
  else if s1.sourceType = "emby" ∧ (cfg.EMBY_ENABLED = false ∨ truthyKey s1.embyKey = false) then
    { s1 with loading := false }
  else
    let s2 := { s1 with current := some fid, isFetching := true }
    let s3 := if isInitial then { s2 with loading := true } else { s2 with loadingMore := true }
    { s3 with error := "" }

/-- The JSON payload of a list endpoint response
(`{list|views|sources, page?, totalPages?, error?}`). -/
structure ListResponse where
  error : Option String := none
  list : Option (List Video) := none
  page : Option Nat := none
  totalPages : Option Nat := none
deriving DecidableEq

/-- JS truthiness of an optional response string field. -/
def truthyStr : Option String → Bool
  | none => false
  | some s => s != ""

/-- JS fallback `o || d` on an optional number (`undefined` and `0` are
falsy). -/
def jsOrNat (o : Option Nat) (d : Nat) : Nat :=
  match o with
  | none => d
  | some n => if n = 0 then d else n

/-- How a fetch terminates, as seen by the code after the awaits. -/
inductive FetchResult where
  | json (data : ListResponse)
  | httpError
  | networkFailure
deriving DecidableEq

/-- Arrival of the outcome of fetch `fid` for page `pg` (page.tsx lines
292-338). If `fid` was aborted, the awaits reject with `AbortError` and
the `finally` guard skips the flag updates, so the state is untouched.
Otherwise: an `error` field in the payload sets the error banner (and
empties the list on page 1); a successful payload replaces (page 1) or
appends (later pages) the items and recomputes `hasMore` from the
reported page and total; an HTTP or network failure sets the generic
error (and empties the list on page 1). The `finally` block then clears
the loading flag for this page and the fetching flag. -/
def deliver (s : LibState) (fid : Nat) (pg : Nat) (r : FetchResult) : LibState :=
  if fid ∈ s.aborted then s
  else
    let isInitial := pg = 1
    let s1 :=
      match r with
      | .json data =>
        if truthyStr data.error then
          let se := { s with error := data.error.getD "" }
          if isInitial then { se with videos := [] } else se
        else
          let newVideos := data.list.getD []
          let sv :=
            if isInitial then { s with videos := newVideos }
            else { s with videos := s.videos ++ newVideos }
          let currentPage := jsOrNat data.page pg
          let totalPages := jsOrNat data.totalPages 1
          { sv with hasMore := currentPage < totalPages }
      | .httpError =>
        let se := { s with error := "获取视频列表失败" }
        if isInitial then { se with videos := [] } else se
      | .networkFailure =>
        let se := { s with error := "获取视频列表失败" }
        if isInitial then { se with videos := [] } else se
    let s2 := if isInitial then { s1 with loading := false } else { s1 with loadingMore := false }
    { s2 with isFetching := false }

/-- Replay a sequence of successful list deliveries
`(fid, page, items)` against a state. -/
def runDeliveries (s : LibState) (evs : List (Nat × Nat × List Video)) : LibState :=
  evs.foldl
    (fun st e => deliver st e.1 e.2.1 (.json { list := some e.2.2 })) s

/-!
Source-parameter encoding (page.tsx). URL strings are modelled as
character lists so that `split(':')` can be reasoned about directly.
-/

/-- JS `String.prototype.split` with a single-character separator. -/
def splitOnChar (c : Char) : List Char → List (List Char)
  | [] => [[]]
  | x :: xs =>
    if x = c then [] :: splitOnChar c xs
    else
      match splitOnChar c xs with
      | [] => [[x]]
      | h :: t => (x :: h) :: t

/-- JS truthiness of an optional character-list string. -/
def truthyKeyChars : Option (List Char) → Bool
  | none => false
  | some k => k != []

/-- The function parseSourceParam (page.tsx lines 52-61): a missing or empty
parameter means OpenList; a parameter containing a colon splits into
`[type, key]`; anything else is the bare source type. -/
def parseSourceParam (sourceParam : Option (List Char)) :
    List Char × Option (List Char) :=
  match sourceParam with
  | none => ("openlist".toList, none)
  | some s =>
    if s = [] then ("openlist".toList, none)
    else if ':' ∈ s then
      let parts := splitOnChar ':' s
      (parts.headD [], parts[1]?)
    else (s, none)

/-- The URL-synchronisation encoding of the current selection (page.tsx
lines 138-142): `emby:<key>` when the source is Emby with a truthy key
and more than one Emby source option is available, the bare source type
otherwise. -/
def buildSourceParam (sourceType : List Char) (embyKey : Option (List Char))
    (optionsLen : Nat) : List Char :=
  if sourceType = "emby".toList ∧ truthyKeyChars embyKey = true ∧ 1 < optionsLen then
    "emby:".toList ++ embyKey.getD []
  else sourceType

/-- Re-encoding of a validated rule as the JSON object the client would
send back: exactly the shape produced by the POST normalization, with an
absent id rendered as `undefined`. -/
def ruleToJS (fr : FilterRule) : JSValue :=
  .obj [("keyword", .str fr.keyword), ("type", .str fr.type),
        ("enabled", .bool fr.enabled), ("id", fr.id.getD .undefined)]

/-- A rule in normalized form: type one of the two enumerated values and
id either absent or a non-empty string (keyword and enabled are a string
and a boolean by construction). -/
def NormalizedRule (fr : FilterRule) : Prop :=
  (fr.type = "normal" ∨ fr.type = "regex") ∧
  (fr.id = none ∨ ∃ s, s ≠ "" ∧ fr.id = some (.str s))

/-!
Helper lemmas.
-/

/-- Reduction of a successful Except bind. -/
theorem except_ok_bind {ε α β : Type} (x : α) (f : α → Except ε β) :
    (Except.ok x >>= f) = f x := rfl

/-- Reduction of a failed Except bind. -/
theorem except_error_bind {ε α β : Type} (e : ε) (f : α → Except ε β) :
    ((Except.error e : Except ε α) >>= f) = Except.error e := rfl

/-- Property access on a value that is neither `null` nor `undefined`
never throws and agrees with the total field lookup. -/
theorem jsGetField_eq_fieldD (v : JSValue) (n : String)
    (h1 : v ≠ JSValue.null) (h2 : v ≠ JSValue.undefined) :
    jsGetField v n = .ok (jsFieldD v n) := by
  cases v
  case null => exact absurd rfl h1
  case undefined => exact absurd rfl h2
  case obj fields =>
    simp only [jsGetField, jsFieldD]
    cases fields.find? (fun f => f.1 = n) <;> rfl
  all_goals rfl

/-- Closed form of the POST normalization on a rule that is neither
`null` nor `undefined`. -/
theorem normalizeRule_eq (rule : JSValue)
    (h1 : rule ≠ JSValue.null) (h2 : rule ≠ JSValue.undefined) :
    normalizeRule rule = .ok
      { keyword := jsToString
          (if truthy (jsFieldD rule "keyword") then jsFieldD rule "keyword" else .str ""),
        type :=
          match jsFieldD rule "type" with
          | .str s => if s = "regex" ∨ s = "normal" then s else "normal"
          | _ => "normal",
        enabled := truthy (jsFieldD rule "enabled"),
        id := if truthy (jsFieldD rule "id") then some (jsFieldD rule "id") else none } := by
  simp only [normalizeRule, jsGetField_eq_fieldD rule _ h1 h2, except_ok_bind]
  rfl

/-- Normalization throws exactly on `null` and `undefined` rules. -/
theorem normalizeRule_ok_iff (rule : JSValue) :
    (∃ fr, normalizeRule rule = .ok fr) ↔
      rule ≠ JSValue.null ∧ rule ≠ JSValue.undefined := by
  constructor
  · rintro ⟨fr, hfr⟩
    constructor
    · rintro rfl
      simp [normalizeRule, jsGetField, except_error_bind] at hfr
    · rintro rfl
      simp [normalizeRule, jsGetField, except_error_bind] at hfr
  · rintro ⟨h1, h2⟩
    exact ⟨_, normalizeRule_eq rule h1 h2⟩

/-- Truthy values are neither `null` nor `undefined`. -/
theorem truthy_ne_null_undef (v : JSValue) (h : truthy v = true) :
    v ≠ JSValue.null ∧ v ≠ JSValue.undefined := by
  cases v <;> simp_all [truthy]

/-- Behaviour of the GET handler once the caller has passed the
authorization gate: it reads the store and answers 200. -/
theorem handleGET_authorized (u : String) (adminEnv : Option String)
    (users : List User) (store : String → Option (List FilterRule))
    (hu : u ≠ "")
    (hauth : adminEnv = some u ∨
      ∃ urec, users.find? (fun r => r.username = u) = some urec ∧ urec.banned = false) :
    handleGET (some u) adminEnv users store =
      (match store u with
       | none => (⟨200, .rules []⟩, [.read u])
       | some rs => (⟨200, .rules rs⟩, [.read u])) := by
  by_cases hadm : adminEnv = some u
  · simp [handleGET, hu, hadm]
  · rcases hauth with h | ⟨urec, hfind, hban⟩
    · exact absurd h hadm
    · simp [handleGET, hu, hadm, hfind, hban]

/-- Behaviour of the POST handler once the caller has passed the
authorization gate: body validation and storage write. -/
theorem handlePOST_authorized (u : String) (adminEnv : Option String)
    (users : List User) (body : Except String JSValue)
    (hu : u ≠ "")
    (hauth : adminEnv = some u ∨
      ∃ urec, users.find? (fun r => r.username = u) = some urec ∧ urec.banned = false) :
    handlePOST (some u) adminEnv users body =
      (match body with
       | .error _ => (⟨500, .errMsg "保存弹幕过滤配置失败"⟩, [])
       | .ok config =>
         if truthy config = false then (⟨400, .errMsg "配置格式错误"⟩, [])
         else
           match jsGetField config "rules" with
           | .error _ => (⟨500, .errMsg "保存弹幕过滤配置失败"⟩, [])
           | .ok rulesV =>
             match rulesV with
             | .arr rules =>
               match rules.mapM normalizeRule with
               | .error _ => (⟨500, .errMsg "保存弹幕过滤配置失败"⟩, [])
               | .ok validatedRules => (⟨200, .success⟩, [.write u validatedRules])
             | _ => (⟨400, .errMsg "配置格式错误"⟩, [])) := by
  by_cases hadm : adminEnv = some u
  · simp [handlePOST, hu, hadm]
  · rcases hauth with h | ⟨urec, hfind, hban⟩
    · exact absurd h hadm
    · simp [handlePOST, hu, hadm, hfind, hban]

/-!
Claim theorems.
-/

/-- C1: for any authenticated non-admin username that is absent from the
shared user list or present with banned set, both GET and POST answer 401
with no storage operation at all (the error precedes any read or write),
and the two operations produce the identical response — the authorization
check behaves the same on both paths, with the admin username exempt. -/
theorem danmaku_auth_gate (u : String) (adminEnv : Option String)
    (users : List User) (store : String → Option (List FilterRule))
    (body : Except String JSValue)
    (hu : u ≠ "") (hadm : adminEnv ≠ some u)
    (hbad : users.find? (fun r => r.username = u) = none ∨
      ∃ urec, users.find? (fun r => r.username = u) = some urec ∧ urec.banned = true) :
    (handleGET (some u) adminEnv users store).1.status = 401 ∧
    (handleGET (some u) adminEnv users store).2 = [] ∧
    (handlePOST (some u) adminEnv users body).1.status = 401 ∧
    (handlePOST (some u) adminEnv users body).2 = [] ∧
    (handleGET (some u) adminEnv users store).1 =
      (handlePOST (some u) adminEnv users body).1 := by
  rcases hbad with hnone | ⟨urec, hfind, hban⟩
  · simp [handleGET, handlePOST, hu, hadm, hnone]
  · simp [handleGET, handlePOST, hu, hadm, hfind, hban]

/-- Witness for C1: unknown user alice against an empty user list. -/
theorem danmaku_auth_gate_witness :
    (handleGET (some "alice") none [] (fun _ => none)).1.status = 401 ∧
    (handleGET (some "alice") none [] (fun _ => none)).2 = [] ∧
    (handlePOST (some "alice") none [] (.ok (JSValue.obj []))).1.status = 401 ∧
    (handlePOST (some "alice") none [] (.ok (JSValue.obj []))).2 = [] ∧
    (handleGET (some "alice") none [] (fun _ => none)).1 =
      (handlePOST (some "alice") none [] (.ok (JSValue.obj []))).1 :=
  danmaku_auth_gate "alice" none [] (fun _ => none) (.ok (JSValue.obj []))
    (by decide) (by decide) (Or.inl rfl)

/-- C2: an authorized POST whose parsed body is falsy (missing/null) or
whose rules field is not an array answers 400 with no storage operation,
leaving the stored configuration unchanged. -/
theorem post_invalid_rules_rejected (u : String) (adminEnv : Option String)
    (users : List User) (store : String → Option (List FilterRule)) (v : JSValue)
    (hu : u ≠ "")
    (hauth : adminEnv = some u ∨
      ∃ urec, users.find? (fun r => r.username = u) = some urec ∧ urec.banned = false)
    (hbad : truthy v = false ∨ isArray (jsFieldD v "rules") = false) :
    (handlePOST (some u) adminEnv users (.ok v)).1.status = 400 ∧
    (handlePOST (some u) adminEnv users (.ok v)).2 = [] ∧
    applyOps store (handlePOST (some u) adminEnv users (.ok v)).2 = store := by
  rw [handlePOST_authorized u adminEnv users (.ok v) hu hauth]
  cases htv : truthy v with
  | false => simp [htv, applyOps]
  | true =>
    have harr : isArray (jsFieldD v "rules") = false := by
      rcases hbad with h | h
      · rw [htv] at h; exact absurd h (by simp)
      · exact h
    have hne := truthy_ne_null_undef v htv
    simp only [htv]
    rw [jsGetField_eq_fieldD v _ hne.1 hne.2]
    cases hjf : jsFieldD v "rules" <;> simp_all [isArray, applyOps]

/-- Witness for C2: admin posting a body whose rules field is a number. -/
theorem post_invalid_rules_rejected_witness :
    (handlePOST (some "root") (some "root") []
      (.ok (JSValue.obj [("rules", JSValue.num 3)]))).1.status = 400 ∧
    (handlePOST (some "root") (some "root") []
      (.ok (JSValue.obj [("rules", JSValue.num 3)]))).2 = [] ∧
    applyOps (fun _ => none) (handlePOST (some "root") (some "root") []
      (.ok (JSValue.obj [("rules", JSValue.num 3)]))).2 = (fun _ => none) :=
  post_invalid_rules_rejected "root" (some "root") [] (fun _ => none)
    (JSValue.obj [("rules", JSValue.num 3)])
    (by decide) (Or.inl rfl) (Or.inr rfl)

/-- C5: for an authorized username with no stored configuration, GET
answers 200 with an empty rules list (and exactly one storage read):
absence is a valid empty state, never a 404 or an error. -/
theorem get_missing_config_empty_rules (u : String) (adminEnv : Option String)
    (users : List User) (store : String → Option (List FilterRule))
    (hu : u ≠ "")
    (hauth : adminEnv = some u ∨
      ∃ urec, users.find? (fun r => r.username = u) = some urec ∧ urec.banned = false)
    (hnone : store u = none) :
    handleGET (some u) adminEnv users store = (⟨200, .rules []⟩, [.read u]) := by
  rw [handleGET_authorized u adminEnv users store hu hauth, hnone]

/-- Witness for C5: a non-banned listed user with an empty store. -/
theorem get_missing_config_empty_rules_witness :
    handleGET (some "bob") none [⟨"bob", false⟩] (fun _ => none) =
      (⟨200, .rules []⟩, [.read "bob"]) :=
  get_missing_config_empty_rules "bob" none [⟨"bob", false⟩] (fun _ => none)
    (by decide) (Or.inr ⟨⟨"bob", false⟩, by simp, rfl⟩) rfl

/-- C10: normalization stores no id for a falsy id field (absent, null,
empty string or zero) and passes a truthy id through unchanged. -/
theorem rule_id_falsy_dropped (rule : JSValue) (fr : FilterRule)
    (h : normalizeRule rule = .ok fr) :
    ((jsFieldD rule "id" = .undefined ∨ jsFieldD rule "id" = .null ∨
      jsFieldD rule "id" = .str "" ∨ jsFieldD rule "id" = .num 0) → fr.id = none) ∧
    (truthy (jsFieldD rule "id") = true → fr.id = some (jsFieldD rule "id")) := by
  have hne := (normalizeRule_ok_iff rule).mp ⟨fr, h⟩
  rw [normalizeRule_eq rule hne.1 hne.2] at h
  injection h with h
  subst h
  constructor
  · rintro (hid | hid | hid | hid) <;> simp [hid, truthy]
  · intro hid
    simp [hid]

/-- Witness for C10: id 0 is dropped, id string abc is kept. -/
theorem rule_id_falsy_dropped_witness :
    (FilterRule.mk "" "normal" false none).id = none ∧
    (FilterRule.mk "x" "normal" false (some (JSValue.str "abc"))).id =
      some (JSValue.str "abc") := by
  constructor
  · exact (rule_id_falsy_dropped (JSValue.obj [("id", JSValue.num 0)])
      ⟨"", "normal", false, none⟩ rfl).1 (Or.inr (Or.inr (Or.inr rfl)))
  · exact (rule_id_falsy_dropped
      (JSValue.obj [("id", JSValue.str "abc"), ("keyword", JSValue.str "x")])
      ⟨"x", "normal", false, some (JSValue.str "abc")⟩ rfl).2 rfl

/-- Counterexample to C3 as stated: the rule whose keyword is the number
5 — a non-string keyword — is normalized to the keyword "5", not to the
empty string (the code computes String(rule.keyword || ''), which only
defaults falsy keywords to the empty string). -/
theorem keyword_coercion_cex :
    (normalizeRule (JSValue.obj [("keyword", JSValue.num 5)])).map
      (fun fr => fr.keyword) = Except.ok "5" ∧ ("5" == "") = false := by
  constructor
  · rfl
  · rfl

/-- C3 (amended): every rule that is not null/undefined is normalized,
never rejected (a whole list of such rules normalizes to a list of the
same length), and per rule: the stored type is normal unless the input
type is exactly the string regex or normal; a falsy keyword is coerced to
the empty string while a truthy keyword is coerced to its JS string
representation; enabled is coerced to a boolean; a truthy id is passed
through and any other id is left undefined. -/
theorem normalizeRule_spec :
    (∀ rules : List JSValue,
      (∀ r ∈ rules, r ≠ JSValue.null ∧ r ≠ JSValue.undefined) →
      ∃ frs, rules.mapM normalizeRule = .ok frs ∧ frs.length = rules.length) ∧
    (∀ rule fr, normalizeRule rule = .ok fr →
      (fr.type = "normal" ∨ fr.type = "regex") ∧
      (jsFieldD rule "type" ≠ .str "regex" → jsFieldD rule "type" ≠ .str "normal" →
        fr.type = "normal") ∧
      (truthy (jsFieldD rule "keyword") = false → fr.keyword = "") ∧
      (truthy (jsFieldD rule "keyword") = true →
        fr.keyword = jsToString (jsFieldD rule "keyword")) ∧
      fr.enabled = truthy (jsFieldD rule "enabled") ∧
      fr.id = (if truthy (jsFieldD rule "id") then some (jsFieldD rule "id") else none)) := by
  constructor
  · intro rules h
    induction rules with
    | nil => exact ⟨[], rfl, rfl⟩
    | cons a l ih =>
      obtain ⟨ha1, ha2⟩ := h a (by simp)
      obtain ⟨frs, hfrs, hlen⟩ := ih (fun r hr => h r (by simp [hr]))
      obtain ⟨fa, hfa⟩ : ∃ fa, normalizeRule a = .ok fa :=
        ⟨_, normalizeRule_eq a ha1 ha2⟩
      refine ⟨fa :: frs, ?_, by simp [hlen]⟩
      rw [List.mapM_cons, hfa, except_ok_bind, hfrs]
      rfl
  · intro rule fr h
    have hne := (normalizeRule_ok_iff rule).mp ⟨fr, h⟩
    rw [normalizeRule_eq rule hne.1 hne.2] at h
    injection h with h
    subst h
    refine ⟨?_, ?_, ?_, ?_, rfl, rfl⟩
    · cases hjt : jsFieldD rule "type" <;> simp
      case str s =>
        by_cases hs : s = "regex" ∨ s = "normal"
        · simp only [hs, if_true]
          tauto
        · simp [hs]
    · intro hne1 hne2
      cases hjt : jsFieldD rule "type" <;> simp
      case str s =>
        rw [hjt] at hne1 hne2
        have hs1 : s ≠ "regex" := fun hc => hne1 (by rw [hc])
        have hs2 : s ≠ "normal" := fun hc => hne2 (by rw [hc])
        simp [hs1, hs2]
    · intro hk
      simp [hk, jsToString]
    · intro hk
      simp [hk]

/-- Witness for C3 (amended): a rule with a numeric enabled field and a
string keyword normalizes without rejection, and enabled is coerced to a
boolean. -/
theorem normalizeRule_spec_witness :
    (∃ frs, ([JSValue.obj [("keyword", JSValue.str "ad"),
        ("type", JSValue.str "regex"), ("enabled", JSValue.num 7)]] :
      List JSValue).mapM normalizeRule = .ok frs ∧ frs.length = 1) ∧
    (FilterRule.mk "ad" "regex" true none).enabled =
      truthy (jsFieldD (JSValue.obj [("keyword", JSValue.str "ad"),
        ("type", JSValue.str "regex"), ("enabled", JSValue.num 7)]) "enabled") := by
  constructor
  · exact normalizeRule_spec.1 _ (by
      intro r hr
      simp at hr
      subst hr
      exact ⟨by simp, by simp⟩)
  · exact (normalizeRule_spec.2
      (JSValue.obj [("keyword", JSValue.str "ad"), ("type", JSValue.str "regex"),
        ("enabled", JSValue.num 7)])
      ⟨"ad", "regex", true, none⟩ rfl).2.2.2.2.1

/-- Per-rule idempotence: renormalizing the JSON form of a rule already
in normalized shape reproduces it exactly. -/
theorem normalizeRule_ruleToJS (fr : FilterRule) (h : NormalizedRule fr) :
    normalizeRule (ruleToJS fr) = .ok fr := by
  obtain ⟨k, t, e, i⟩ := fr
  obtain ⟨ht0, hi0⟩ := h
  have ht : t = "normal" ∨ t = "regex" := ht0
  have hi : i = none ∨ ∃ s, s ≠ "" ∧ i = some (.str s) := hi0
  rw [normalizeRule_eq (ruleToJS ⟨k, t, e, i⟩) (by simp [ruleToJS]) (by simp [ruleToJS])]
  have hk : jsFieldD (ruleToJS ⟨k, t, e, i⟩) "keyword" = .str k := rfl
  have htf : jsFieldD (ruleToJS ⟨k, t, e, i⟩) "type" = .str t := rfl
  have he : jsFieldD (ruleToJS ⟨k, t, e, i⟩) "enabled" = .bool e := rfl
  have hif : jsFieldD (ruleToJS ⟨k, t, e, i⟩) "id" = i.getD .undefined := rfl
  rw [hk, htf, he, hif]
  refine congrArg Except.ok ?_
  have hkeq : jsToString (if truthy (JSValue.str k) then JSValue.str k else .str "") = k := by
    by_cases hk0 : k = ""
    · simp [hk0, truthy, jsToString]
    · simp [truthy, hk0, jsToString]
  have hteq : (match JSValue.str t with
      | JSValue.str s => if s = "regex" ∨ s = "normal" then s else "normal"
      | _ => "normal") = t := by
    rcases ht with h | h <;> simp [h]
  have hieq : (if truthy (i.getD .undefined) then some (i.getD .undefined) else none) = i := by
    rcases hi with h | ⟨s, hs, h⟩
    · simp [h, truthy]
    · simp [h, truthy, hs]
  simp only [FilterRule.mk.injEq]
  exact ⟨hkeq, hteq, rfl, hieq⟩

/-- C4: renormalizing an already-normalized rule list (string keyword,
type among normal and regex, boolean enabled, id a non-empty string or
absent) yields the identical list. -/
theorem normalize_idempotent (rules : List FilterRule)
    (h : ∀ fr ∈ rules, NormalizedRule fr) :
    rules.mapM (fun fr => normalizeRule (ruleToJS fr)) = .ok rules := by
  induction rules with
  | nil => rfl
  | cons a l ih =>
    rw [List.mapM_cons, normalizeRule_ruleToJS a (h a (by simp)), except_ok_bind,
      ih (fun fr hfr => h fr (by simp [hfr]))]
    rfl

/-- Witness for C4: the singleton normalized list with a regex rule is a
fixed point of renormalization. -/
theorem normalize_idempotent_witness :
    ([⟨"ad", "regex", true, none⟩] : List FilterRule).mapM
      (fun fr => normalizeRule (ruleToJS fr)) = .ok [⟨"ad", "regex", true, none⟩] :=
  normalize_idempotent [⟨"ad", "regex", true, none⟩] (by
    intro fr hfr
    simp at hfr
    subst hfr
    exact ⟨Or.inr rfl, Or.inl rfl⟩)

/-- The fetch-effect front never clears the record of aborted
controllers: it only adds the previously current one. -/
theorem triggerFetch_aborted_eq (cfg : RuntimeConfig) (s : LibState) (fid : Nat) :
    (triggerFetch cfg s fid).aborted =
      (match s.current with
       | some old => old :: s.aborted
       | none => s.aborted) := by
  unfold triggerFetch
  cases hc : s.current <;> simp only [hc] <;> split_ifs <;> rfl

/-- Triggering a new fetch aborts the previously outstanding one. -/
theorem triggerFetch_aborts (cfg : RuntimeConfig) (s : LibState) (fid old : Nat)
    (h : s.current = some old) :
    old ∈ (triggerFetch cfg s fid).aborted := by
  rw [triggerFetch_aborted_eq, h]
  exact List.mem_cons_self old s.aborted

/-- When the configuration guards pass, the fetch effect installs the new
controller as current. -/
theorem triggerFetch_current (cfg : RuntimeConfig) (s : LibState) (fid : Nat)
    (h : canFetch cfg s = true) :
    (triggerFetch cfg s fid).current = some fid := by
  simp only [canFetch, Bool.and_eq_true, Bool.not_eq_true', decide_eq_false_iff_not] at h
  obtain ⟨h1, h2⟩ := h
  unfold triggerFetch
  cases hc : s.current <;> by_cases hpg : s.page = 1 <;> simp [hc, hpg, h1, h2]

/-- Delivering a response on an aborted fetch is a complete no-op: no
items, no error, no flag changes. -/
theorem deliver_noop_of_aborted (s : LibState) (fid pg : Nat) (r : FetchResult)
    (h : fid ∈ s.aborted) :
    deliver s fid pg r = s := by
  unfold deliver
  rw [if_pos h]

/-- Delivery never changes the set of aborted controllers. -/
theorem deliver_aborted (s : LibState) (fid pg : Nat) (r : FetchResult) :
    (deliver s fid pg r).aborted = s.aborted := by
  unfold deliver
  split
  · rfl
  · cases r with
    | json data =>
      by_cases he : truthyStr data.error = true <;>
        by_cases hpg : pg = 1 <;> simp [he, hpg]
    | httpError => by_cases hpg : pg = 1 <;> simp [hpg]
    | networkFailure => by_cases hpg : pg = 1 <;> simp [hpg]

/-- A successful page-1 delivery replaces the item list. -/
theorem deliver_page_one (s : LibState) (fid : Nat) (items : List Video)
    (hab : fid ∉ s.aborted) :
    (deliver s fid 1 (.json { list := some items })).videos = items := by
  simp [deliver, hab, truthyStr]

/-- A successful later-page delivery appends to the item list. -/
theorem deliver_later_page (s : LibState) (fid pg : Nat) (items : List Video)
    (hab : fid ∉ s.aborted) (hpg : pg ≠ 1) :
    (deliver s fid pg (.json { list := some items })).videos = s.videos ++ items := by
  simp [deliver, hab, hpg, truthyStr]

/-- Accumulated length over a run of successful later-page deliveries. -/
theorem runDeliveries_length (rest : List (Nat × Nat × List Video)) :
    ∀ s0 : LibState, (∀ e ∈ rest, e.1 ∉ s0.aborted ∧ e.2.1 ≠ 1) →
    (runDeliveries s0 rest).videos.length =
      s0.videos.length + (rest.map (fun e => e.2.2.length)).sum := by
  induction rest with
  | nil =>
    intro s0 _
    simp [runDeliveries]
  | cons e rest ih =>
    intro s0 h
    obtain ⟨he1, he2⟩ := h e (by simp)
    have hstep : (deliver s0 e.1 e.2.1 (.json { list := some e.2.2 })).videos =
        s0.videos ++ e.2.2 := deliver_later_page s0 e.1 e.2.1 e.2.2 he1 he2
    have habort : (deliver s0 e.1 e.2.1 (.json { list := some e.2.2 })).aborted =
        s0.aborted := deliver_aborted s0 e.1 e.2.1 _
    have hrun : runDeliveries s0 (e :: rest) =
        runDeliveries (deliver s0 e.1 e.2.1 (.json { list := some e.2.2 })) rest := rfl
    rw [hrun, ih _ (fun f hf => by rw [habort]; exact h f (by simp [hf]))]
    rw [hstep]
    simp [List.length_append]
    ring

/-- C6: (a) triggering a new list fetch first aborts the previously
outstanding fetch; (b) a response arriving for an aborted fetch commits
nothing at all — the state is unchanged; (c) hence after two consecutive
triggers (the second possibly for a different page), both completion
orders of the two network responses leave exactly the state committed by
the newer fetch, whose items are the ones displayed. -/
theorem fetch_cancellation_race :
    (∀ (cfg : RuntimeConfig) (s : LibState) (fid old : Nat),
      s.current = some old → old ∈ (triggerFetch cfg s fid).aborted) ∧
    (∀ (s : LibState) (fid pg : Nat) (r : FetchResult),
      fid ∈ s.aborted → deliver s fid pg r = s) ∧
    (∀ (cfg : RuntimeConfig) (s : LibState) (f1 f2 p2 pg1 : Nat)
      (items1 items2 : List Video),
      canFetch cfg s = true → f1 ≠ f2 → f2 ∉ s.aborted → s.current ≠ some f2 →
      (deliver (deliver (triggerFetch cfg { triggerFetch cfg s f1 with page := p2 } f2)
          f1 pg1 (.json { list := some items1 })) f2 1 (.json { list := some items2 }) =
        deliver (triggerFetch cfg { triggerFetch cfg s f1 with page := p2 } f2)
          f2 1 (.json { list := some items2 })) ∧
      (deliver (deliver (triggerFetch cfg { triggerFetch cfg s f1 with page := p2 } f2)
          f2 1 (.json { list := some items2 })) f1 pg1 (.json { list := some items1 }) =
        deliver (triggerFetch cfg { triggerFetch cfg s f1 with page := p2 } f2)
          f2 1 (.json { list := some items2 })) ∧
      (deliver (triggerFetch cfg { triggerFetch cfg s f1 with page := p2 } f2)
          f2 1 (.json { list := some items2 })).videos = items2) := by
  refine ⟨triggerFetch_aborts, deliver_noop_of_aborted, ?_⟩
  intro cfg s f1 f2 p2 pg1 items1 items2 hcan hne hf2ab hf2cur
  have hcur1 : ({ triggerFetch cfg s f1 with page := p2 } : LibState).current = some f1 := by
    have := triggerFetch_current cfg s f1 hcan
    simp [this]
  have hf1ab : f1 ∈ (triggerFetch cfg { triggerFetch cfg s f1 with page := p2 } f2).aborted :=
    triggerFetch_aborts cfg _ f2 f1 hcur1
  have hf2nab : f2 ∉ (triggerFetch cfg { triggerFetch cfg s f1 with page := p2 } f2).aborted := by
    rw [triggerFetch_aborted_eq, hcur1]
    simp only [triggerFetch_aborted_eq]
    intro hmem
    rcases List.mem_cons.mp hmem with h | h
    · exact hne (h.symm)
    · cases hc : s.current with
      | none =>
        rw [hc] at h
        exact hf2ab h
      | some old =>
        rw [hc] at h
        rcases List.mem_cons.mp h with h2 | h2
        · exact hf2cur (by rw [hc, h2])
        · exact hf2ab h2
  refine ⟨?_, ?_, ?_⟩
  · rw [deliver_noop_of_aborted _ f1 pg1 _ hf1ab]
  · rw [deliver_noop_of_aborted _ f1 pg1 _ (by
      rw [deliver_aborted]
      exact hf1ab)]
  · exact deliver_page_one _ f2 items2 hf2nab

/-- Witness for C6: two fetches on a fresh OpenList-enabled controller;
in both completion orders only the second fetch's single item survives. -/
theorem fetch_cancellation_race_witness :
    (deliver (deliver (triggerFetch ⟨true, true⟩
        { triggerFetch ⟨true, true⟩
            ⟨"openlist", none, [], true, false, "", 1, true, "all", false, none, []⟩ 1
          with page := 2 } 2)
        1 1 (.json { list := some [⟨"a", none, none, "t", "p", none, none, none, none,
          none, "movie"⟩] }))
      2 1 (.json { list := some [⟨"b", none, none, "u", "q", none, none, none, none,
        none, "tv"⟩] })).videos =
      [⟨"b", none, none, "u", "q", none, none, none, none, none, "tv"⟩] := by
  have h := (fetch_cancellation_race.2.2 ⟨true, true⟩
    ⟨"openlist", none, [], true, false, "", 1, true, "all", false, none, []⟩ 1 2 2 1
    [⟨"a", none, none, "t", "p", none, none, none, none, none, "movie"⟩]
    [⟨"b", none, none, "u", "q", none, none, none, none, none, "tv"⟩]
    (by decide) (by decide) (by simp) (by simp))
  rw [h.1, h.2.2]

/-- C7: after a successful delivery whose payload reports a nonzero page
and a nonzero total page count, hasMore is true exactly when the reported
page is strictly below the reported total. -/
theorem hasMore_iff_page_lt_total (s : LibState) (fid pg : Nat)
    (resp : ListResponse) (p t : Nat)
    (hab : fid ∉ s.aborted) (herr : truthyStr resp.error = false)
    (hp : resp.page = some p) (hp0 : p ≠ 0)
    (ht : resp.totalPages = some t) (ht0 : t ≠ 0) :
    (deliver s fid pg (.json resp)).hasMore = decide (p < t) := by
  have h1 : ∀ d, jsOrNat resp.page d = p := by intro d; simp [hp, jsOrNat, hp0]
  have h2 : ∀ d, jsOrNat resp.totalPages d = t := by intro d; simp [ht, jsOrNat, ht0]
  by_cases hpg : pg = 1 <;> simp [deliver, hab, herr, hpg, h1, h2]

/-- Witness for C7: page 2 of 5 leaves hasMore true. -/
theorem hasMore_iff_page_lt_total_witness :
    (deliver ⟨"openlist", none, [], true, false, "", 2, true, "all", true, some 1, []⟩
      1 2 (.json ⟨none, some [], some 2, some 5⟩)).hasMore = decide (2 < 5) :=
  hasMore_iff_page_lt_total
    ⟨"openlist", none, [], true, false, "", 2, true, "all", true, some 1, []⟩
    1 2 ⟨none, some [], some 2, some 5⟩ 2 5
    (by simp) rfl rfl (by decide) rfl (by decide)

/-- C8: a successful page-1 delivery replaces the item list, a successful
later-page delivery appends, and a run consisting of a page-1 delivery
followed by later-page deliveries accumulates exactly the sum of the
pages' item counts. -/
theorem pagination_accumulation :
    (∀ (s : LibState) (fid : Nat) (items : List Video), fid ∉ s.aborted →
      (deliver s fid 1 (.json { list := some items })).videos = items) ∧
    (∀ (s : LibState) (fid pg : Nat) (items : List Video), fid ∉ s.aborted → pg ≠ 1 →
      (deliver s fid pg (.json { list := some items })).videos = s.videos ++ items) ∧
    (∀ (s : LibState) (fid1 : Nat) (items1 : List Video)
      (rest : List (Nat × Nat × List Video)),
      fid1 ∉ s.aborted → (∀ e ∈ rest, e.1 ∉ s.aborted ∧ e.2.1 ≠ 1) →
      (runDeliveries s ((fid1, 1, items1) :: rest)).videos.length =
        (((fid1, 1, items1) :: rest).map (fun e => e.2.2.length)).sum) := by
  refine ⟨deliver_page_one, deliver_later_page, ?_⟩
  intro s fid1 items1 rest hab hrest
  have hrun : runDeliveries s ((fid1, 1, items1) :: rest) =
      runDeliveries (deliver s fid1 1 (.json { list := some items1 })) rest := rfl
  have hv : (deliver s fid1 1 (.json { list := some items1 })).videos = items1 :=
    deliver_page_one s fid1 items1 hab
  have ha : (deliver s fid1 1 (.json { list := some items1 })).aborted = s.aborted :=
    deliver_aborted s fid1 1 _
  rw [hrun, runDeliveries_length rest _ (fun e he => by rw [ha]; exact hrest e he), hv]
  simp

/-- Witness for C8: one page-1 item plus two page-2 items accumulate to
three. -/
theorem pagination_accumulation_witness :
    (runDeliveries ⟨"openlist", none, [], true, false, "", 1, true, "all", false, none, []⟩
      [(1, 1, [⟨"a", none, none, "t", "p", none, none, none, none, none, "movie"⟩]),
       (2, 2, [⟨"b", none, none, "u", "q", none, none, none, none, none, "tv"⟩,
               ⟨"c", none, none, "v", "r", none, none, none, none, none, "tv"⟩])]).videos.length =
      ([(1, 1, ([⟨"a", none, none, "t", "p", none, none, none, none, none, "movie"⟩] :
          List Video)),
        (2, 2, [⟨"b", none, none, "u", "q", none, none, none, none, none, "tv"⟩,
                ⟨"c", none, none, "v", "r", none, none, none, none, none, "tv"⟩])].map
        (fun e => e.2.2.length)).sum :=
  pagination_accumulation.2.2
    ⟨"openlist", none, [], true, false, "", 1, true, "all", false, none, []⟩
    1 [⟨"a", none, none, "t", "p", none, none, none, none, none, "movie"⟩]
    [(2, 2, [⟨"b", none, none, "u", "q", none, none, none, none, none, "tv"⟩,
             ⟨"c", none, none, "v", "r", none, none, none, none, none, "tv"⟩])]
    (by simp)
    (by
      intro e he
      simp at he
      subst he
      exact ⟨by simp, by decide⟩)

/-- Splitting a string that does not contain the separator yields the
whole string as the single part. -/
theorem splitOnChar_not_mem (c : Char) (l : List Char) (h : c ∉ l) :
    splitOnChar c l = [l] := by
  induction l with
  | nil => rfl
  | cons x xs ih =>
    have hx : x ≠ c := fun hc => h (hc ▸ List.mem_cons_self x xs)
    have hxs : c ∉ xs := fun hm => h (List.mem_cons_of_mem _ hm)
    simp [splitOnChar, hx, ih hxs]

/-- Splitting at the first separator occurrence peels off the separator-free
head. -/
theorem splitOnChar_append (c : Char) (a b : List Char) (h : c ∉ a) :
    splitOnChar c (a ++ c :: b) = a :: splitOnChar c b := by
  induction a with
  | nil => simp [splitOnChar]
  | cons x xs ih =>
    have hx : x ≠ c := fun hc => h (hc ▸ List.mem_cons_self x xs)
    have hxs : c ∉ xs := fun hm => h (List.mem_cons_of_mem _ hm)
    simp [splitOnChar, hx, ih hxs]

/-- C9: encoding the selection of an Emby instance with a non-empty key
containing no colon into the URL navigation form (which carries the key
whenever more than one Emby source option exists) and re-parsing the
result with parseSourceParam yields back the emby source type and the
same key. -/
theorem source_param_round_trip (k : List Char) (n : Nat)
    (hk : k ≠ []) (hc : ':' ∉ k) (hn : 1 < n) :
    parseSourceParam (some (buildSourceParam "emby".toList (some k) n)) =
      ("emby".toList, some k) := by
  have hb : buildSourceParam "emby".toList (some k) n = "emby:".toList ++ k := by
    simp [buildSourceParam, truthyKeyChars, hk, hn]
  rw [hb]
  have hne : "emby:".toList ++ k ≠ [] := by simp
  have hcolon : ':' ∈ "emby:".toList ++ k :=
    List.mem_append_left k (by decide)
  have hdecomp : "emby:".toList ++ k = "emby".toList ++ ':' :: k := by
    have h5 : "emby:".toList = "emby".toList ++ [':'] := by decide
    rw [h5, List.append_assoc]
    rfl
  have hsplit : splitOnChar ':' ("emby:".toList ++ k) = "emby".toList :: [k] := by
    rw [hdecomp, splitOnChar_append ':' "emby".toList k (by decide),
      splitOnChar_not_mem ':' k hc]
  rw [show ("emby:".toList ++ k) =
    'e' :: 'm' :: 'b' :: 'y' :: ':' :: k from rfl] at hsplit
  simp [parseSourceParam, hne, hcolon, hsplit]

/-- Witness for C9: the key emby1 with two source options round-trips. -/
theorem source_param_round_trip_witness :
    parseSourceParam (some (buildSourceParam "emby".toList (some "emby1".toList) 2)) =
      ("emby".toList, some "emby1".toList) :=
  source_param_round_trip "emby1".toList 2 (by decide) (by decide) (by decide)
